import Mathlib

/-!
Shallow embedding of `src/main.rs` of the `gradient` game (Bevy + Rapier).

The per-tick systems registered in `main` are
`handle_input`, `move_camera_to_ball`, `increase_score_and_spawn_platforms`,
`update_score`, `detect_fall`, `detect_hit_obstacle`, `reset`.
They are registered as a plain `add_systems(FixedUpdate, (...))` tuple with
no `.chain()` and no `.before`/`.after` constraints, so Bevy leaves their
relative order unspecified; any sequentialization is a legal schedule.
Two tick models are given: `tick` fixes the registration order as one legal
sequentialization (sufficient for the order-robust properties), and
`tickSched` takes the schedule as an explicit parameter together with the
double-buffered `ResetEvent` reader state, for the one property that is
sensitive to the `detect_fall`/`reset` order.

Modelling choices:
- `f32` scalars of the game state are modelled exactly as `ℚ`.  The camera
  follow controller, whose arithmetic needs square roots, is modelled
  separately over `ℝ` further below (`Vec3R`, `move_camera_translation`).
- ECS queries become lists.  `Query::single`/`single_mut` (which panic unless
  exactly one entity matches) and `Option::unwrap` become `Except String`.
- Bevy `Commands` (spawn/despawn) are deferred: they are collected in a
  `Pending` buffer and applied at the end of the tick, after `reset`,
  matching the command flush at the end of the `FixedUpdate` schedule.
- `random::<f32>()` is an injected stream `rand : ℕ → ℚ` with index `ridx`;
  every draw the source makes is consumed, in source order, including the
  draws whose result is write-only in the model (rotation tilts, obstacle
  placement inside the platform footprint).
- Platform/ball rotations are write-only in the source (nothing reads them
  back), so they are not carried in the state.  The camera transform is
  carried symbolically (`Cam`): the only facts the game state ever needs
  about it are which update produced it, and whether it equals the initial
  pose that both `setup_scene` and `reset` assign.
- External physics integration (Rapier) is modelled as an input: each tick
  starts by installing the externally integrated ball transform/velocity.
- The `Score` component is `u32` in the source; it is modelled as `ℕ`
  (it increases by at most 1 per tick, so 32-bit wrap-around is not the
  subject of any spec sentence).
-/

/-- 3D vector over exact rationals, modelling Bevy `Vec3` game state. -/
structure Vec3 where
  x : ℚ
  y : ℚ
  z : ℚ
deriving DecidableEq, Repr

/-- `const PLATFORM_SIZE: Vec3 = vec3(10., 3., 100.)`. -/
def PLATFORM_SIZE : Vec3 := ⟨10, 3, 100⟩

/-- `const CAMERA_OFFSET: Vec3 = vec3(0., 20., 15.)`. -/
def CAMERA_OFFSET : Vec3 := ⟨0, 20, 15⟩

/-- The ball entity: entity id, transform translation, `Velocity.linvel`,
and its `Score` component. -/
structure Ball where
  id : ℕ
  pos : Vec3
  vel : Vec3
  score : ℕ
deriving DecidableEq, Repr

/-- A platform entity: entity id, transform translation, and its `Scored`
component.  The fixed `-45°` X tilt and the random Z tilt are write-only in
the source and are not carried. -/
structure Platform where
  id : ℕ
  pos : Vec3
  scored : Bool
deriving DecidableEq, Repr

/-- The camera transform, carried symbolically: `Cam.initial` is
`Transform::from_translation(CAMERA_OFFSET).looking_at(Vec3::ZERO, Vec3::Y)`
(assigned by both `setup_scene` and `reset`); `Cam.follow prev ballPos` is
the result of one `move_camera_to_ball` step (lerp of the translation and
slerp of the rotation toward the ball), whose numeric content is modelled
separately over `ℝ` below. -/
inductive Cam where
  | initial : Cam
  | follow (prev : Cam) (ballPos : Vec3) : Cam
deriving DecidableEq, Repr

/-- The world state: the committed (flushed) entities plus the injected
random stream. -/
structure World where
  balls : List Ball
  platforms : List Platform
  obstacles : List ℕ
  cam : Cam
  nextId : ℕ
  rand : ℕ → ℚ
  ridx : ℕ

/-- A `bevy_rapier` collision event, as consumed by `detect_hit_obstacle`.
Participants are entity ids. -/
inductive CollisionEvent where
  | started (first second : ℕ) : CollisionEvent
  | stopped (first second : ℕ) : CollisionEvent
deriving DecidableEq, Repr

/-- External input to one tick: the ball transform/velocity as integrated by
the external physics engine, the keyboard state, and the collision events
reported this tick. -/
structure TickInput where
  ballPos : Vec3
  ballVel : Vec3
  left : Bool
  right : Bool
  resetKey : Bool
  collisions : List CollisionEvent

/-- Draw the next value of the injected `random::<f32>()` stream. -/
def drawRand (w : World) : ℚ × World :=
  (w.rand w.ridx, { w with ridx := w.ridx + 1 })

/-- Deferred `Commands`: entities spawned this tick, applied at the end of
the schedule. -/
structure Pending where
  platforms : List Platform
  obstacles : List ℕ
deriving Repr

/-- The empty command buffer. -/
def noPending : Pending := ⟨[], []⟩

/-- `handle_input`: reads the keyboard, nudges the single ball laterally by
`±0.5`, and sends a `ResetEvent` while `R` is held.  Returns the world and
whether a `ResetEvent` was sent. -/
def handle_input (inp : TickInput) (w : World) : Except String (World × Bool) :=
  match w.balls with
  | [b] =>
    let horizontal : ℚ := (if inp.right then 1 else 0) - (if inp.left then 1 else 0)
    .ok ({ w with balls := [{ b with vel := { b.vel with x := b.vel.x + horizontal * (1/2) } }] },
         inp.resetKey)
  | _ => .error "handle_input: ball_query.single_mut() requires exactly one ball"

/-- `move_camera_to_ball` at the world level: one camera-follow step toward
the single ball.  The numeric translation update is `move_camera_translation`
over `ℝ` below; here only the symbolic camera state is advanced. -/
def move_camera_to_ball (w : World) : Except String World :=
  match w.balls with
  | [b] => .ok { w with cam := Cam.follow w.cam b.pos }
  | _ => .error "move_camera_to_ball: ball_query.single() requires exactly one ball"

/-- The minimal `z` (track-axis) coordinate among a list of platforms;
`sort_unstable_by` descending by `z` followed by `last_mut()` selects a
platform attaining this minimum. -/
def minZ : List Platform → ℚ
  | [] => 0
  | p :: rest => rest.foldl (fun m q => min m q.pos.z) p.pos.z

/-- Index of the platform selected as `last_platform`: a platform attaining
the minimal `z`.  (`sort_unstable_by` leaves ties in unspecified order; the
model resolves ties to the first platform in query order.) -/
def anchorIdx (ps : List Platform) : ℕ :=
  ps.findIdx (fun p => p.pos.z = minZ ps)

/-- The platform selected as `last_platform` (the furthest-advanced one,
i.e. of minimal `z`). -/
def anchor (ps : List Platform) : Platform :=
  (ps.get? (anchorIdx ps)).getD ⟨0, ⟨0, 0, 0⟩, false⟩

/-- The obstacle spawn loop body: each obstacle consumes the two random
draws placing it in the platform footprint (`forward` then `right`); the
resulting translation is write-only in the model. -/
def spawnObstacles : ℕ → World × Pending → World × Pending
  | 0, (w, pend) => (w, pend)
  | n + 1, (w, pend) =>
    let (_fwd, w) := drawRand w
    let (_right, w) := drawRand w
    let ob := w.nextId
    spawnObstacles n
      ({ w with nextId := w.nextId + 1 },
       { pend with obstacles := pend.obstacles ++ [ob] })

/-- One iteration of the platform spawn loop (`for index in 0..2`): draws the
lateral offset, builds the new transform from the ball transform
(`x = rand*20 + (index*20 - 10) - 10 + ball.x`, `y = ball.y - 90`,
`z = ball.z - 80`), consumes the random Z-tilt draw, spawns the platform, then
spawns `(rand*2 + 2) as i32` obstacles on it. -/
def spawnPlatform (index : ℕ) (b : Ball) (wp : World × Pending) : World × Pending :=
  let (w, pend) := wp
  let (r1, w) := drawRand w
  let pos : Vec3 :=
    ⟨r1 * 20 + ((index : ℚ) * 20 - 10) - 10 + b.pos.x, b.pos.y - 90, b.pos.z - 80⟩
  let (_tilt, w) := drawRand w
  let p : Platform := ⟨w.nextId, pos, false⟩
  let w := { w with nextId := w.nextId + 1 }
  let pend := { pend with platforms := pend.platforms ++ [p] }
  let (rc, w) := drawRand w
  spawnObstacles ⌊rc * 2 + 2⌋.toNat (w, pend)

/-- `increase_score_and_spawn_platforms`: selects the furthest-advanced
platform (`unwrap` fails on an empty platform list), and if the single
ball has advanced past it (`ball.z < platform.z`): when its `Scored` flag is
still false, increments the score and runs the spawn loop for indices 0 and
1; in either case the flag is then set to true.  Spawns are deferred. -/
def increase_score_and_spawn_platforms (w : World) :
    Except String (World × Pending) :=
  if w.platforms.isEmpty then
    .error "increase_score_and_spawn_platforms: last_platform unwrap on empty platform list"
  else
    match w.balls with
    | [b] =>
      let a := anchor w.platforms
      if b.pos.z < a.pos.z then
        let (w1, pend) :=
          if a.scored then
            (w, noPending)
          else
            spawnPlatform 1 b
              (spawnPlatform 0 b
                ({ w with balls := [{ b with score := b.score + 1 }] }, noPending))
        .ok ({ w1 with
                platforms := w1.platforms.set (anchorIdx w.platforms) { a with scored := true } },
             pend)
      else
        .ok (w, noPending)
    | _ => .error "increase_score_and_spawn_platforms: ball_query.single() requires exactly one ball"

/-- `update_score`: pushes the single score value to the UI text (an external
collaborator), leaving the modelled world unchanged. -/
def update_score (w : World) : Except String World :=
  match w.balls with
  | [_] => .ok w
  | _ => .error "update_score: score_query.single() requires exactly one score"

/-- The minimal `y` coordinate among a list of platforms
(`reduce(f32::min)`; `unwrap` fails on an empty list). -/
def minY : List Platform → ℚ
  | [] => 0
  | p :: rest => rest.foldl (fun m q => min m q.pos.y) p.pos.y

/-- `detect_fall`: sends a `ResetEvent` when the single ball is strictly
below the minimal platform height minus the fall tolerance `20`.  Returns
whether the event was sent. -/
def detect_fall (w : World) : Except String Bool :=
  if w.platforms.isEmpty then
    .error "detect_fall: reduce(min) unwrap on empty platform list"
  else
    match w.balls with
    | [b] => .ok (decide (b.pos.y < minY w.platforms - 20))
    | _ => .error "detect_fall: ball_query.single_mut() requires exactly one ball"

/-- `detect_hit_obstacle`: for each `CollisionEvent::Started(first, second)`,
sends a `ResetEvent` when `first` is the ball entity and `second` is an
obstacle entity (the swapped participant order is not checked by the
source).  Returns whether an event was sent. -/
def detect_hit_obstacle (events : List CollisionEvent) (w : World) :
    Except String Bool :=
  match events with
  | [] => .ok false
  | e :: rest =>
    match e with
    | .started first second =>
      match w.balls with
      | [b] =>
        (detect_hit_obstacle rest w).map
          (fun later => (b.id == first && w.obstacles.contains second) || later)
      | _ => .error "detect_hit_obstacle: ball_query.single() requires exactly one ball"
    | .stopped _ _ => detect_hit_obstacle rest w

/-- `reset`: if no `ResetEvent` is pending, does nothing.  Otherwise resets
the single ball transform to `Transform::default()` (translation zero),
zeroes its velocity and score, despawns every platform after the first in
query order, clears every `Scored` flag, despawns every obstacle, and
restores the camera to the initial pose. -/
def reset (pending : Bool) (w : World) : Except String World :=
  if pending then
    match w.balls with
    | [b] =>
      .ok { w with
            balls := [{ b with pos := ⟨0, 0, 0⟩, vel := ⟨0, 0, 0⟩, score := 0 }],
            platforms := (w.platforms.take 1).map (fun p => { p with scored := false }),
            obstacles := [],
            cam := Cam.initial }
    | _ => .error "reset: ball_query.single_mut() requires exactly one ball"
  else
    .ok w

/-- One `FixedUpdate` tick under one legal sequentialization — the
registration order (Bevy imposes no order on the unchained tuple; see
`tickSched` for the schedule-parameterized semantics).  External physics
installs the integrated ball transform/velocity, the seven systems run, and
the deferred spawn commands are flushed at the end of the schedule.
Returns the world together with whether a reset was consumed this tick. -/
def tick (inp : TickInput) (w : World) : Except String (World × Bool) :=
  let wphp := { w with
                balls := w.balls.map (fun b => { b with pos := inp.ballPos, vel := inp.ballVel }) }
  match handle_input inp wphp with
  | .error e => .error e
  | .ok (w1, ev1) =>
    match move_camera_to_ball w1 with
    | .error e => .error e
    | .ok w2 =>
      match increase_score_and_spawn_platforms w2 with
      | .error e => .error e
      | .ok (w3, pend) =>
        match update_score w3 with
        | .error e => .error e
        | .ok w4 =>
          match detect_fall w4 with
          | .error e => .error e
          | .ok ev2 =>
            match detect_hit_obstacle inp.collisions w4 with
            | .error e => .error e
            | .ok ev3 =>
              match reset (ev1 || ev2 || ev3) w4 with
              | .error e => .error e
              | .ok w5 =>
                .ok ({ w5 with platforms := w5.platforms ++ pend.platforms,
                                obstacles := w5.obstacles ++ pend.obstacles },
                     ev1 || ev2 || ev3)

/-- The world produced by `setup_scene`, parameterized over the injected
random stream: one camera at the initial pose, one ball at the origin with
zero velocity and score 0, one unscored platform at
`(0, -10 - PLATFORM_SIZE.y/2, 0)`. -/
def initialWorld (r : ℕ → ℚ) : World where
  balls := [⟨1, ⟨0, 0, 0⟩, ⟨0, 0, 0⟩, 0⟩]
  platforms := [⟨2, ⟨0, -10 - PLATFORM_SIZE.y / 2, 0⟩, false⟩]
  obstacles := []
  cam := Cam.initial
  nextId := 3
  rand := r
  ridx := 0

/-- The single ball as it stands when `increase_score_and_spawn_platforms`
runs: external physics installed `inp.ballPos`/`inp.ballVel`, then
`handle_input` added the lateral nudge to `vel.x`. -/
def midBall (inp : TickInput) (b : Ball) : Ball :=
  { b with
    pos := inp.ballPos,
    vel := { x := inp.ballVel.x +
                    ((if inp.right then 1 else 0) - (if inp.left then 1 else 0)) * (1 / 2),
             y := inp.ballVel.y, z := inp.ballVel.z } }

/-- The scoring branch of `increase_score_and_spawn_platforms`: increment
the score and run the spawn loop for indices 0 and 1. -/
def scoreChain (w : World) (b : Ball) : World × Pending :=
  spawnPlatform 1 b
    (spawnPlatform 0 b
      ({ w with balls := [{ b with score := b.score + 1 }] }, noPending))

/-- The `Scored` flag of the `i`-th platform (in query order), if present. -/
def scoredAt (w : World) (i : ℕ) : Option Bool :=
  (w.platforms.get? i).map Platform.scored

/-- Whether the scoring step (score increment plus platform generation) of
`increase_score_and_spawn_platforms` fires this tick, and for which platform
(by index in query order): it fires exactly when there is a single ball, a
platform exists, the integrated ball transform is past the furthest-advanced
platform, and that platform is not yet scored. -/
def scoringFires (inp : TickInput) (w : World) : Option ℕ :=
  if w.balls.length = 1 ∧ ¬w.platforms.isEmpty ∧
      inp.ballPos.z < (anchor w.platforms).pos.z ∧ (anchor w.platforms).scored = false then
    some (anchorIdx w.platforms)
  else none

/-- The boolean `detect_hit_obstacle` accumulates: some collision-start
event has the ball as its first participant and an obstacle as its second. -/
def hitAny (evs : List CollisionEvent) (bid : ℕ) (obs : List ℕ) : Bool :=
  evs.any (fun e =>
    match e with
    | .started first second => bid == first && obs.contains second
    | .stopped _ _ => false)

/-- How many ticks of the given input sequence fire the scoring step for the
platform at index `i` (counting stops if a tick fails). -/
def fireCount (w : World) (i : ℕ) : List TickInput → ℕ
  | [] => 0
  | inp :: rest =>
    (if scoringFires inp w = some i then 1 else 0) +
      match tick inp w with
      | .ok (w', _) => fireCount w' i rest
      | .error _ => 0

/-- No tick of the given input sequence consumes a reset (vacuously true
past a failing tick). -/
def noResets (w : World) : List TickInput → Bool
  | [] => true
  | inp :: rest =>
    match tick inp w with
    | .ok (w', r) => !r && noResets w' rest
    | .error _ => true

/-- Run a sequence of ticks, keeping only the final world. -/
def runTicks (w : World) (inps : List TickInput) : Except String World :=
  inps.foldlM (fun wcur inp => (tick inp wcur).map Prod.fst) w

/-! ### The camera-follow numerics, over `ℝ`

`move_camera_to_ball` computes with `f32` square roots; its translation
update is modelled here exactly over `ℝ`. -/

/-- 3D vector over `ℝ`, for the camera-follow arithmetic. -/
structure Vec3R where
  x : ℝ
  y : ℝ
  z : ℝ

/-- Componentwise sum, modelling `Vec3` addition. -/
def Vec3R.add (a b : Vec3R) : Vec3R := ⟨a.x + b.x, a.y + b.y, a.z + b.z⟩

/-- Componentwise difference, modelling `Vec3` subtraction. -/
def Vec3R.sub (a b : Vec3R) : Vec3R := ⟨a.x - b.x, a.y - b.y, a.z - b.z⟩

/-- Scalar multiple, modelling `Vec3 * f32`. -/
def Vec3R.smul (t : ℝ) (v : Vec3R) : Vec3R := ⟨t * v.x, t * v.y, t * v.z⟩

/-- Dot product. -/
def Vec3R.dot (a b : Vec3R) : ℝ := a.x * b.x + a.y * b.y + a.z * b.z

/-- Euclidean length, modelling `Vec3::length`. -/
noncomputable def Vec3R.length (v : Vec3R) : ℝ :=
  Real.sqrt (v.x ^ 2 + v.y ^ 2 + v.z ^ 2)

/-- `Vec3::lerp(self, rhs, s) = self + ((rhs - self) * s)`. -/
def Vec3R.lerp (a b : Vec3R) (t : ℝ) : Vec3R := a.add ((b.sub a).smul t)

/-- The interpolation factor of `move_camera_to_ball`:
`0.05 + distance_error / 1000`, where `distance_error` is the absolute
difference between the camera-to-ball distance and the nominal offset
length. -/
noncomputable def cameraLerpFactor (camPos ballPos offset : Vec3R) : ℝ :=
  0.05 + |(ballPos.sub camPos).length - offset.length| / 1000

/-- The translation update of `move_camera_to_ball`: lerp the camera
translation toward `ball translation + offset` by `cameraLerpFactor`. -/
noncomputable def move_camera_translation (camPos ballPos offset : Vec3R) : Vec3R :=
  camPos.lerp (ballPos.add offset) (cameraLerpFactor camPos ballPos offset)

/-! ### Concrete inputs and worlds used by witnesses and counterexamples -/

/-- The initial world with the all-zero random stream. -/
def w0zero : World := initialWorld (fun _ => 0)

/-- A tick input that leaves the ball resting at the origin. -/
def stayInput : TickInput := ⟨⟨0, 0, 0⟩, ⟨0, 0, 0⟩, false, false, false, []⟩

/-- A tick input in which physics has carried the ball past the initial
platform (`z = -12 < 0`), high enough not to fall. -/
def pastInput : TickInput := ⟨⟨0, 0, -12⟩, ⟨0, 0, -5⟩, false, false, false, []⟩

/-- A world containing one obstacle (entity id 7) next to the ball. -/
def hitWorld : World :=
  { w0zero with obstacles := [7] }

/-- A busy pre-reset world: score 4, three platforms, two obstacles. -/
def busyWorld : World :=
  { w0zero with
    balls := [⟨1, ⟨2, -150, -170⟩, ⟨1, -3, -9⟩, 4⟩],
    platforms :=
      [⟨2, ⟨0, -10 - PLATFORM_SIZE.y / 2, 0⟩, true⟩,
       ⟨5, ⟨-6, -100, -90⟩, true⟩,
       ⟨6, ⟨9, -190, -170⟩, false⟩],
    obstacles := [7, 8],
    cam := Cam.follow Cam.initial ⟨2, -150, -170⟩,
    nextId := 9 }

/-- A world violating the at-least-one-platform assumption. -/
def noPlatformWorld : World := { w0zero with platforms := [] }

/-- A world violating the exactly-one-ball assumption. -/
def twoBallWorld : World :=
  { w0zero with
    balls := [⟨1, ⟨0, 0, 0⟩, ⟨0, 0, 0⟩, 0⟩, ⟨9, ⟨1, 1, 1⟩, ⟨0, 0, 0⟩, 0⟩] }

/-! ### Schedule-parameterized tick

`main` registers the seven systems without `.chain()` or any
`.before`/`.after` constraint, so Bevy may run them in any order.  The
definitions below make the schedule explicit: a tick is a fold of the
systems in an arbitrary order, threading the state of `reset`'s
double-buffered `EventReader` (which sees exactly the `ResetEvent`s written
since `reset`'s previous run: events written earlier in the same tick, plus
events written after `reset` ran on the previous tick). -/

theorem update_score_eq (w : World) (b : Ball) (hb : w.balls = [b]) :
    update_score w = .ok w := by
  simp [update_score, hb]

theorem detect_fall_eq (w : World) (b : Ball) (hb : w.balls = [b])
    (hp : ¬w.platforms.isEmpty) :
    detect_fall w = .ok (decide (b.pos.y < minY w.platforms - 20)) := by
  simp [detect_fall, hb, hp]

theorem detect_hit_eq (evs : List CollisionEvent) (w : World) (b : Ball)
    (hb : w.balls = [b]) :
    detect_hit_obstacle evs w = .ok (hitAny evs b.id w.obstacles) := by
  induction evs with
  | nil => simp [detect_hit_obstacle, hitAny]
  | cons e rest ih =>
    cases e with
    | started first second =>
      simp [detect_hit_obstacle, hb, ih, hitAny, Except.map, Bool.or_comm]
    | stopped first second =>
      simp [detect_hit_obstacle, ih, hitAny]

theorem reset_true_eq (w : World) (b : Ball) (hb : w.balls = [b]) :
    reset true w =
      .ok { w with
            balls := [{ b with pos := ⟨0, 0, 0⟩, vel := ⟨0, 0, 0⟩, score := 0 }],
            platforms := (w.platforms.take 1).map (fun p => { p with scored := false }),
            obstacles := [],
            cam := Cam.initial } := by
  simp [reset, hb]

theorem spawnObstacles_eq (n : ℕ) (w : World) (pend : Pending) :
    spawnObstacles n (w, pend) =
      ({ w with nextId := w.nextId + n, ridx := w.ridx + 2 * n },
       { pend with obstacles := pend.obstacles ++ (List.range n).map (w.nextId + ·) }) := by
  induction n generalizing w pend with
  | zero => simp [spawnObstacles]
  | succ m ih =>
    simp only [spawnObstacles, drawRand]
    rw [ih]
    have hrange : pend.obstacles ++ [w.nextId] ++ (List.range m).map (w.nextId + 1 + ·) =
        pend.obstacles ++ (List.range (m + 1)).map (w.nextId + ·) := by
      rw [List.range_succ_eq_map]
      simp [List.map_map, Function.comp_def, List.append_assoc]
      exact fun a _ => by omega
    refine Prod.ext ?_ ?_
    · simp; omega
    · simpa using hrange

theorem spawnPlatform_eq (i : ℕ) (b : Ball) (w : World) (pend : Pending) :
    spawnPlatform i b (w, pend) =
      ({ w with
          nextId := w.nextId + 1 + ⌊(w.rand (w.ridx + 2)) * 2 + 2⌋.toNat,
          ridx := w.ridx + 3 + 2 * ⌊(w.rand (w.ridx + 2)) * 2 + 2⌋.toNat },
       { pend with
          platforms := pend.platforms ++
            [⟨w.nextId,
              ⟨w.rand w.ridx * 20 + ((i : ℚ) * 20 - 10) - 10 + b.pos.x,
               b.pos.y - 90, b.pos.z - 80⟩, false⟩],
          obstacles := pend.obstacles ++
            (List.range ⌊(w.rand (w.ridx + 2)) * 2 + 2⌋.toNat).map (w.nextId + 1 + ·) }) := by
  rw [spawnPlatform]
  simp only [drawRand]
  rw [spawnObstacles_eq]

theorem foldl_min_choice (f : Platform → ℚ) (t : List Platform) (a : ℚ) :
    t.foldl (fun m q => min m (f q)) a = a ∨
      ∃ q ∈ t, t.foldl (fun m q => min m (f q)) a = f q := by
  induction t generalizing a with
  | nil => left; rfl
  | cons b s ih =>
    simp only [List.foldl_cons]
    rcases ih (min a (f b)) with h | ⟨q, hq, h⟩
    · rcases min_choice a (f b) with hm | hm
      · left; rw [h, hm]
      · right; exact ⟨b, by simp, by rw [h, hm]⟩
    · right; exact ⟨q, by simp [hq], h⟩

theorem minZ_attained (ps : List Platform) (hp : ps ≠ []) :
    ∃ p ∈ ps, p.pos.z = minZ ps := by
  match ps with
  | [] => exact absurd rfl hp
  | p :: t =>
    rcases foldl_min_choice (fun q => q.pos.z) t p.pos.z with h | ⟨q, hq, h⟩
    · exact ⟨p, by simp, by simp [minZ, h]⟩
    · exact ⟨q, by simp [hq], by simp [minZ, h]⟩

theorem anchorIdx_lt_length (ps : List Platform) (hp : ps ≠ []) :
    anchorIdx ps < ps.length := by
  obtain ⟨p, hmem, hz⟩ := minZ_attained ps hp
  exact List.findIdx_lt_length_of_exists ⟨p, hmem, decide_eq_true hz⟩

theorem anchor_get (ps : List Platform) (hp : ps ≠ []) :
    ps.get? (anchorIdx ps) = some (anchor ps) := by
  have h := anchorIdx_lt_length ps hp
  unfold anchor
  rw [List.get?_eq_get h]
  rfl

theorem scoreChain_fst_balls (w : World) (b : Ball) :
    (scoreChain w b).1.balls = [{ b with score := b.score + 1 }] := by
  rw [scoreChain, spawnPlatform_eq, spawnPlatform_eq]

theorem scoreChain_fst_platforms (w : World) (b : Ball) :
    (scoreChain w b).1.platforms = w.platforms := by
  rw [scoreChain, spawnPlatform_eq, spawnPlatform_eq]

theorem scoreChain_fst_obstacles (w : World) (b : Ball) :
    (scoreChain w b).1.obstacles = w.obstacles := by
  rw [scoreChain, spawnPlatform_eq, spawnPlatform_eq]

theorem increase_eq_notPast (w : World) (b : Ball) (hb : w.balls = [b])
    (hp : ¬w.platforms.isEmpty) (hz : ¬b.pos.z < (anchor w.platforms).pos.z) :
    increase_score_and_spawn_platforms w = .ok (w, noPending) := by
  simp [increase_score_and_spawn_platforms, hb, hp, hz]

theorem increase_eq_already (w : World) (b : Ball) (hb : w.balls = [b])
    (hp : ¬w.platforms.isEmpty) (hz : b.pos.z < (anchor w.platforms).pos.z)
    (hs : (anchor w.platforms).scored = true) :
    increase_score_and_spawn_platforms w =
      .ok ({ w with platforms := w.platforms.set (anchorIdx w.platforms)
                      { anchor w.platforms with scored := true } }, noPending) := by
  simp [increase_score_and_spawn_platforms, hb, hp, hz, hs]

theorem increase_eq_score (w : World) (b : Ball) (hb : w.balls = [b])
    (hp : ¬w.platforms.isEmpty) (hz : b.pos.z < (anchor w.platforms).pos.z)
    (hs : (anchor w.platforms).scored = false) :
    increase_score_and_spawn_platforms w =
      .ok ({ (scoreChain w b).1 with
              platforms := (scoreChain w b).1.platforms.set (anchorIdx w.platforms)
                { anchor w.platforms with scored := true } },
           (scoreChain w b).2) := by
  simp [increase_score_and_spawn_platforms, hb, hp, hz, hs, scoreChain]

theorem update_score_ok (w w4 : World) (h : update_score w = .ok w4) : w4 = w := by
  unfold update_score at h
  split at h
  · exact ((Except.ok.injEq _ _).mp h).symm
  · simp at h

theorem tick_eq (inp : TickInput) (w : World) (b : Ball) (hb : w.balls = [b]) :
    tick inp w =
      (match increase_score_and_spawn_platforms
          { w with balls := [midBall inp b], cam := Cam.follow w.cam inp.ballPos } with
       | .error e => .error e
       | .ok (w3, pend) =>
         match update_score w3 with
         | .error e => .error e
         | .ok w4 =>
           match detect_fall w4 with
           | .error e => .error e
           | .ok fall =>
             match detect_hit_obstacle inp.collisions w4 with
             | .error e => .error e
             | .ok hit =>
               match reset (inp.resetKey || fall || hit) w4 with
               | .error e => .error e
               | .ok w5 =>
                 .ok ({ w5 with platforms := w5.platforms ++ pend.platforms,
                                 obstacles := w5.obstacles ++ pend.obstacles },
                      inp.resetKey || fall || hit)) := by
  simp only [tick, hb]
  rfl

theorem increase_ok_ne_empty (w : World) (x : World × Pending)
    (h : increase_score_and_spawn_platforms w = .ok x) : ¬w.platforms.isEmpty := by
  intro hemp
  simp [increase_score_and_spawn_platforms, hemp] at h

theorem tick_ok_inv (inp : TickInput) (w w' : World) (r : Bool)
    (h : tick inp w = .ok (w', r)) :
    ∃ b, w.balls = [b] ∧
      ∃ w3 pend fall hit,
        increase_score_and_spawn_platforms
            { w with balls := [midBall inp b], cam := Cam.follow w.cam inp.ballPos } =
          .ok (w3, pend) ∧
        detect_fall w3 = .ok fall ∧
        detect_hit_obstacle inp.collisions w3 = .ok hit ∧
        r = (inp.resetKey || fall || hit) ∧
        ∃ w5, reset r w3 = .ok w5 ∧
          w' = { w5 with platforms := w5.platforms ++ pend.platforms,
                         obstacles := w5.obstacles ++ pend.obstacles } := by
  cases hbs : w.balls with
  | nil => simp [tick, hbs, handle_input] at h
  | cons b t =>
    cases t with
    | cons b2 t2 => simp [tick, hbs, handle_input] at h
    | nil =>
      refine ⟨b, rfl, ?_⟩
      rw [tick_eq inp w b hbs] at h
      cases hinc : increase_score_and_spawn_platforms
          { w with balls := [midBall inp b], cam := Cam.follow w.cam inp.ballPos } with
      | error e => rw [hinc] at h; simp at h
      | ok pr =>
        obtain ⟨w3, pend⟩ := pr
        rw [hinc] at h
        simp only at h
        cases hup : update_score w3 with
        | error e => rw [hup] at h; simp at h
        | ok w4 =>
          have hw43 := update_score_ok _ _ hup
          rw [hup] at h
          simp only at h
          subst hw43
          cases hfall : detect_fall w4 with
          | error e => rw [hfall] at h; simp at h
          | ok fall =>
            rw [hfall] at h
            simp only at h
            cases hhit : detect_hit_obstacle inp.collisions w4 with
            | error e => rw [hhit] at h; simp at h
            | ok hit =>
              rw [hhit] at h
              simp only at h
              cases hres : reset (inp.resetKey || fall || hit) w4 with
              | error e => rw [hres] at h; simp at h
              | ok w5 =>
                rw [hres] at h
                simp only [Except.ok.injEq, Prod.mk.injEq] at h
                obtain ⟨hw', hr⟩ := h
                subst hr
                exact ⟨w4, pend, fall, hit, rfl, hfall, hhit, rfl, w5, hres, hw'.symm⟩

theorem increase_ok_cases (w : World) (b : Ball) (hb : w.balls = [b])
    (hp : ¬w.platforms.isEmpty) (w3 : World) (pend : Pending)
    (h : increase_score_and_spawn_platforms w = .ok (w3, pend)) :
    (¬b.pos.z < (anchor w.platforms).pos.z ∧ w3 = w ∧ pend = noPending) ∨
    (b.pos.z < (anchor w.platforms).pos.z ∧ (anchor w.platforms).scored = true ∧
      w3.balls = w.balls ∧ pend = noPending ∧
      w3.platforms = w.platforms.set (anchorIdx w.platforms)
        { anchor w.platforms with scored := true }) ∨
    (b.pos.z < (anchor w.platforms).pos.z ∧ (anchor w.platforms).scored = false ∧
      w3.balls = [{ b with score := b.score + 1 }] ∧ pend = (scoreChain w b).2 ∧
      w3.platforms = w.platforms.set (anchorIdx w.platforms)
        { anchor w.platforms with scored := true }) := by
  by_cases hz : b.pos.z < (anchor w.platforms).pos.z
  · by_cases hs : (anchor w.platforms).scored
    · rw [increase_eq_already w b hb hp hz hs] at h
      simp only [Except.ok.injEq, Prod.mk.injEq] at h
      obtain ⟨h1, h2⟩ := h
      refine Or.inr (Or.inl ⟨hz, hs, ?_, h2.symm, ?_⟩) <;> rw [← h1]
    · have hs' : (anchor w.platforms).scored = false := by
        simpa using hs
      rw [increase_eq_score w b hb hp hz hs'] at h
      simp only [Except.ok.injEq, Prod.mk.injEq] at h
      obtain ⟨h1, h2⟩ := h
      refine Or.inr (Or.inr ⟨hz, hs', ?_, h2.symm, ?_⟩) <;> rw [← h1]
      · exact scoreChain_fst_balls w b
      · rw [scoreChain_fst_platforms]
  · rw [increase_eq_notPast w b hb hp hz] at h
    simp only [Except.ok.injEq, Prod.mk.injEq] at h
    exact Or.inl ⟨hz, h.1.symm, h.2.symm⟩

theorem reset_false_eq (w : World) : reset false w = .ok w := rfl

theorem reset_ok_of_false (w w5 : World) (h : reset false w = .ok w5) : w5 = w := by
  rw [reset_false_eq] at h
  exact ((Except.ok.injEq _ _).mp h).symm

theorem scoredAt_true_elim (w : World) (i : ℕ) (hs : scoredAt w i = some true) :
    ∃ p, w.platforms.get? i = some p ∧ p.scored = true := by
  unfold scoredAt at hs
  exact Option.map_eq_some'.mp hs

theorem scored_mono (inp : TickInput) (w w' : World)
    (h : tick inp w = .ok (w', false)) (i : ℕ)
    (hs : scoredAt w i = some true) : scoredAt w' i = some true := by
  obtain ⟨b, hb, w3, pend, fall, hit, hinc, hfall, hhit, hr, w5, hres, hw'⟩ :=
    tick_ok_inv inp w w' false h
  have hpm := increase_ok_ne_empty _ _ hinc
  have hcases := increase_ok_cases _ (midBall inp b) rfl hpm w3 pend hinc
  have hplat : w3.platforms = w.platforms ∨
      w3.platforms = w.platforms.set (anchorIdx w.platforms)
        { anchor w.platforms with scored := true } := by
    rcases hcases with ⟨_, h3, _⟩ | ⟨_, _, _, _, h3⟩ | ⟨_, _, _, _, h3⟩
    · left; rw [h3]
    · right; exact h3
    · right; exact h3
  have hw5 : w5 = w3 := reset_ok_of_false w3 w5 hres
  rw [hw5] at hw'
  obtain ⟨p, hp, hpsc⟩ := scoredAt_true_elim w i hs
  have hlen : i < w.platforms.length := by
    obtain ⟨hlt, -⟩ := List.get?_eq_some.mp hp
    exact hlt
  have hget3 : ∃ q, w3.platforms.get? i = some q ∧ q.scored = true := by
    rcases hplat with h3 | h3
    · exact ⟨p, by rw [h3]; exact hp, hpsc⟩
    · by_cases hidx : anchorIdx w.platforms = i
      · refine ⟨{ anchor w.platforms with scored := true }, ?_, rfl⟩
        rw [h3, ← hidx]
        exact List.get?_set_eq_of_lt _ (hidx ▸ hlen)
      · exact ⟨p, by rw [h3, List.get?_set_ne _ _ hidx]; exact hp, hpsc⟩
  obtain ⟨q, hq, hqsc⟩ := hget3
  have hlen3 : i < w3.platforms.length := by
    obtain ⟨hlt, -⟩ := List.get?_eq_some.mp hq
    exact hlt
  rw [hw']
  unfold scoredAt
  simp only
  rw [List.get?_append hlen3, hq]
  simp [hqsc]

theorem fire_sets_flag (inp : TickInput) (w w' : World)
    (h : tick inp w = .ok (w', false)) (i : ℕ)
    (hf : scoringFires inp w = some i) : scoredAt w' i = some true := by
  unfold scoringFires at hf
  split at hf
  case isFalse => exact absurd hf (by simp)
  case isTrue hcond =>
    obtain ⟨hone, hne, hz, hsf⟩ := hcond
    have hi : anchorIdx w.platforms = i := by
      simpa using hf
    obtain ⟨b, hb, w3, pend, fall, hit, hinc, hfall, hhit, hr, w5, hres, hw'⟩ :=
      tick_ok_inv inp w w' false h
    have hpm := increase_ok_ne_empty _ _ hinc
    have hcases := increase_ok_cases _ (midBall inp b) rfl hpm w3 pend hinc
    have hplat : w3.platforms = w.platforms.set (anchorIdx w.platforms)
        { anchor w.platforms with scored := true } := by
      rcases hcases with ⟨hnz, _, _⟩ | ⟨_, _, _, _, h3⟩ | ⟨_, _, _, _, h3⟩
      · exact absurd hz hnz
      · exact h3
      · exact h3
    have hw5 : w5 = w3 := reset_ok_of_false w3 w5 hres
    rw [hw5] at hw'
    have hne' : w.platforms ≠ [] := by
      intro hnil
      rw [hnil] at hne
      exact hne rfl
    have hlen : anchorIdx w.platforms < w.platforms.length :=
      anchorIdx_lt_length _ hne'
    have hget3 : w3.platforms.get? i = some { anchor w.platforms with scored := true } := by
      rw [hplat, ← hi]
      exact List.get?_set_eq_of_lt _ (hi ▸ hlen)
    have hlen3 : i < w3.platforms.length := by
      obtain ⟨hlt, -⟩ := List.get?_eq_some.mp hget3
      exact hlt
    rw [hw']
    unfold scoredAt
    simp only
    rw [List.get?_append hlen3, hget3]
    rfl

theorem no_refire (inp : TickInput) (w : World) (i : ℕ)
    (hs : scoredAt w i = some true) : scoringFires inp w ≠ some i := by
  intro hf
  unfold scoringFires at hf
  split at hf
  case isFalse => exact absurd hf (by simp)
  case isTrue hcond =>
    obtain ⟨hone, hne, hz, hsf⟩ := hcond
    have hi : anchorIdx w.platforms = i := by
      simpa using hf
    have hne' : w.platforms ≠ [] := by
      intro hnil
      rw [hnil] at hne
      exact hne rfl
    obtain ⟨p, hp, hpsc⟩ := scoredAt_true_elim w i hs
    rw [← hi] at hp
    rw [anchor_get _ hne'] at hp
    have : p = anchor w.platforms := by
      exact (Option.some.injEq _ _).mp hp.symm
    rw [this, hsf] at hpsc
    exact Bool.false_ne_true hpsc

theorem anchorIdx_single (p : Platform) : anchorIdx [p] = 0 := by
  simp [anchorIdx, minZ, List.findIdx_cons]

theorem anchor_single (p : Platform) : anchor [p] = p := by
  simp [anchor, anchorIdx_single]

theorem tick_stay_eval :
    tick stayInput w0zero =
      .ok ({ balls := [⟨1, ⟨0, 0, 0⟩, ⟨0 + (0 - 0) * (1/2), 0, 0⟩, 0⟩],
             platforms := [⟨2, ⟨0, -10 - PLATFORM_SIZE.y / 2, 0⟩, false⟩],
             obstacles := [],
             cam := Cam.follow Cam.initial ⟨0, 0, 0⟩,
             nextId := 3, rand := fun _ => 0, ridx := 0 }, false) := by
  rw [tick_eq stayInput w0zero ⟨1, ⟨0, 0, 0⟩, ⟨0, 0, 0⟩, 0⟩ rfl]
  rw [increase_eq_notPast _ (midBall stayInput ⟨1, ⟨0, 0, 0⟩, ⟨0, 0, 0⟩, 0⟩) rfl
        (by simp [w0zero, initialWorld])
        (by
          show ¬(midBall stayInput ⟨1, ⟨0, 0, 0⟩, ⟨0, 0, 0⟩, 0⟩).pos.z <
            (anchor [(⟨2, ⟨0, -10 - PLATFORM_SIZE.y / 2, 0⟩, false⟩ : Platform)]).pos.z
          rw [anchor_single]
          norm_num [midBall, stayInput])]
  simp only []
  rw [update_score_eq _ _ rfl]
  simp only []
  rw [detect_fall_eq _ _ rfl (by simp [w0zero, initialWorld])]
  rw [show decide ((midBall stayInput ⟨1, ⟨0, 0, 0⟩, ⟨0, 0, 0⟩, 0⟩).pos.y <
        minY w0zero.platforms - 20) = false from by
      rw [decide_eq_false_iff_not]
      show ¬(0:ℚ) < minY [(⟨2, ⟨0, -10 - PLATFORM_SIZE.y / 2, 0⟩, false⟩ : Platform)] - 20
      simp [minY, PLATFORM_SIZE]
      norm_num]
  simp only []
  rw [show stayInput.collisions = [] from rfl]
  rw [detect_hit_eq _ _ _ rfl]
  simp only [hitAny, List.any_nil]
  rw [show (stayInput.resetKey || false || false) = false from rfl]
  rw [reset_false_eq]
  simp [midBall, stayInput, w0zero, initialWorld, noPending]

theorem tick_initial_eval (r : ℕ → ℚ) (inp : TickInput)
    (hkey : inp.resetKey = false) (hcoll : inp.collisions = [])
    (hz : inp.ballPos.z < 0)
    (hy : ¬inp.ballPos.y < -10 - PLATFORM_SIZE.y / 2 - 20) :
    tick inp (initialWorld r) =
      .ok ({ balls := [⟨1, inp.ballPos,
                ⟨inp.ballVel.x +
                    ((if inp.right then 1 else 0) - (if inp.left then 1 else 0)) * (1 / 2),
                  inp.ballVel.y, inp.ballVel.z⟩, 1⟩],
             platforms :=
               [⟨2, ⟨0, -10 - PLATFORM_SIZE.y / 2, 0⟩, true⟩,
                ⟨3, ⟨r 0 * 20 - 20 + inp.ballPos.x, inp.ballPos.y - 90, inp.ballPos.z - 80⟩, false⟩,
                ⟨4 + ⌊r 2 * 2 + 2⌋.toNat,
                 ⟨r (3 + 2 * ⌊r 2 * 2 + 2⌋.toNat) * 20 + inp.ballPos.x,
                  inp.ballPos.y - 90, inp.ballPos.z - 80⟩, false⟩],
             obstacles :=
               (List.range ⌊r 2 * 2 + 2⌋.toNat).map (fun k => 4 + k) ++
                 (List.range ⌊r (5 + 2 * ⌊r 2 * 2 + 2⌋.toNat) * 2 + 2⌋.toNat).map
                   (fun k => 5 + ⌊r 2 * 2 + 2⌋.toNat + k),
             cam := Cam.follow Cam.initial inp.ballPos,
             nextId := 5 + ⌊r 2 * 2 + 2⌋.toNat + ⌊r (5 + 2 * ⌊r 2 * 2 + 2⌋.toNat) * 2 + 2⌋.toNat,
             rand := r,
             ridx := 6 + 2 * ⌊r 2 * 2 + 2⌋.toNat +
               2 * ⌊r (5 + 2 * ⌊r 2 * 2 + 2⌋.toNat) * 2 + 2⌋.toNat }, false) := by
  rw [tick_eq inp (initialWorld r) ⟨1, ⟨0, 0, 0⟩, ⟨0, 0, 0⟩, 0⟩ rfl]
  rw [increase_eq_score _ (midBall inp ⟨1, ⟨0, 0, 0⟩, ⟨0, 0, 0⟩, 0⟩) rfl
        (by simp [initialWorld])
        (by
          show (midBall inp ⟨1, ⟨0, 0, 0⟩, ⟨0, 0, 0⟩, 0⟩).pos.z <
            (anchor [(⟨2, ⟨0, -10 - PLATFORM_SIZE.y / 2, 0⟩, false⟩ : Platform)]).pos.z
          rw [anchor_single]
          exact hz)
        (by
          show (anchor [(⟨2, ⟨0, -10 - PLATFORM_SIZE.y / 2, 0⟩, false⟩ : Platform)]).scored = false
          rw [anchor_single])]
  rw [scoreChain, spawnPlatform_eq, spawnPlatform_eq]
  simp only []
  rw [update_score_eq _ _ rfl]
  simp only [initialWorld, midBall, anchorIdx_single, anchor_single, List.set]
  rw [detect_fall_eq _ _ rfl (by simp)]
  simp only [minY, List.foldl_nil]
  rw [decide_eq_false hy, hcoll, detect_hit_eq _ _ _ rfl]
  simp only [hitAny, List.any_nil]
  rw [hkey]
  simp only [Bool.or_false, Bool.false_or]
  rw [reset_false_eq]
  simp only []
  simp [noPending]
  norm_num
  rw [show 3 + 2 * (⌊r 2 * 2⌋ + 2).toNat + 2 = 5 + 2 * (⌊r 2 * 2⌋ + 2).toNat from by omega]
  refine ⟨by ring, ?_, by omega, by omega⟩
  exact List.map_congr_left (fun a _ => by omega)

theorem fireCount_zero (inps : List TickInput) (w : World) (i : ℕ)
    (hs : scoredAt w i = some true) (hnr : noResets w inps = true) :
    fireCount w i inps = 0 := by
  induction inps generalizing w with
  | nil => rfl
  | cons inp rest ih =>
    rw [fireCount, if_neg (no_refire inp w i hs)]
    cases htk : tick inp w with
    | error e => rfl
    | ok pr =>
      obtain ⟨w', r⟩ := pr
      rw [noResets, htk] at hnr
      simp only [Bool.and_eq_true, Bool.not_eq_true'] at hnr
      obtain ⟨hr, hnr'⟩ := hnr
      subst hr
      simp only [Nat.zero_add]
      exact ih w' (scored_mono inp w w' htk i hs) hnr'

/-- C1: between resets, the `Scored` flag of any given platform transitions
false→true at most once, and the scoring step (score increment plus platform
generation) of `increase_score_and_spawn_platforms` fires at most once for
the same platform object: along any tick sequence in which no reset is
consumed, the scoring step fires at most once for the platform at any fixed
query-order index. -/
theorem scoring_fires_at_most_once (w : World) (inps : List TickInput) (i : ℕ)
    (hnr : noResets w inps = true) : fireCount w i inps ≤ 1 := by
  induction inps generalizing w with
  | nil => simp [fireCount]
  | cons inp rest ih =>
    rw [fireCount]
    cases htk : tick inp w with
    | error e =>
      split <;> simp
    | ok pr =>
      obtain ⟨w', r⟩ := pr
      rw [noResets, htk] at hnr
      simp only [Bool.and_eq_true, Bool.not_eq_true'] at hnr
      obtain ⟨hr, hnr'⟩ := hnr
      subst hr
      by_cases hf : scoringFires inp w = some i
      · rw [if_pos hf]
        show 1 + fireCount w' i rest ≤ 1
        rw [fireCount_zero rest w' i (fire_sets_flag inp w w' htk i hf) hnr']
      · rw [if_neg hf]
        simpa using ih w' hnr'

/-- Witness for C1 at a concrete run: the initial world ticked once with the
ball carried past the initial platform (the scoring step fires exactly once
and no reset is consumed). -/
theorem scoring_fires_at_most_once_witness :
    fireCount w0zero 0 [pastInput] ≤ 1 :=
  scoring_fires_at_most_once w0zero [pastInput] 0 (by
    simp only [noResets]
    rw [show w0zero = initialWorld (fun _ => 0) from rfl,
        tick_initial_eval (fun _ => 0) pastInput rfl rfl (by norm_num [pastInput])
          (by norm_num [pastInput, PLATFORM_SIZE])]
    simp [noResets])

theorem error_cases {α : Type} (x : Except String α) (h : ∀ v, x ≠ .ok v) :
    ∃ e, x = .error e := by
  cases x with
  | error e => exact ⟨e, rfl⟩
  | ok v => exact absurd rfl (h v)

/-- C4: per tick, the score is left unchanged or incremented by exactly one
when no reset is consumed, and becomes exactly 0 on any reset transition —
so along every tick sequence the score is monotonically non-decreasing until
a reset occurs. -/
theorem score_monotone_until_reset (inp : TickInput) (w w' : World) (r : Bool)
    (b b' : Ball) (hb : w.balls = [b]) (hb' : w'.balls = [b'])
    (h : tick inp w = .ok (w', r)) :
    (r = false → b'.score = b.score ∨ b'.score = b.score + 1) ∧
    (r = true → b'.score = 0) := by
  obtain ⟨b0, hb0, w3, pend, fall, hit, hinc, hfall, hhit, hr, w5, hres, hw'⟩ :=
    tick_ok_inv inp w w' r h
  rw [hb] at hb0
  injection hb0 with hbb hnil
  subst hbb
  have hpm := increase_ok_ne_empty _ _ hinc
  have hcases := increase_ok_cases _ (midBall inp b) rfl hpm w3 pend hinc
  have hb3 : ∃ bm, w3.balls = [bm] ∧ bm.score = b.score ∧ bm.pos = inp.ballPos ∨
      w3.balls = [bm] ∧ bm.score = b.score + 1 ∧ bm.pos = inp.ballPos := by
    rcases hcases with ⟨_, h3, _⟩ | ⟨_, _, h3, _, _⟩ | ⟨_, _, h3, _, _⟩
    · exact ⟨midBall inp b, Or.inl ⟨by rw [h3], rfl, rfl⟩⟩
    · exact ⟨midBall inp b, Or.inl ⟨by rw [h3], rfl, rfl⟩⟩
    · exact ⟨{ midBall inp b with score := (midBall inp b).score + 1 },
        Or.inr ⟨by rw [h3], rfl, rfl⟩⟩
  obtain ⟨bm, hbm⟩ := hb3
  have hbmballs : w3.balls = [bm] := by
    rcases hbm with ⟨h1, _, _⟩ | ⟨h1, _, _⟩ <;> exact h1
  have hbmscore : bm.score = b.score ∨ bm.score = b.score + 1 := by
    rcases hbm with ⟨_, h2, _⟩ | ⟨_, h2, _⟩
    · exact Or.inl h2
    · exact Or.inr h2
  constructor
  · intro hrf
    subst hrf
    have hw53 : w5 = w3 := reset_ok_of_false w3 w5 hres
    rw [hw53] at hw'
    rw [hw'] at hb'
    simp only at hb'
    rw [hbmballs] at hb'
    injection hb' with h1 _
    rw [← h1]
    exact hbmscore
  · intro hrt
    subst hrt
    rw [reset_true_eq w3 bm hbmballs] at hres
    have hw5 : w5 = { w3 with
        balls := [{ bm with pos := ⟨0, 0, 0⟩, vel := ⟨0, 0, 0⟩, score := 0 }],
        platforms := (w3.platforms.take 1).map (fun p => { p with scored := false }),
        obstacles := [], cam := Cam.initial } := ((Except.ok.injEq _ _).mp hres).symm
    rw [hw5] at hw'
    rw [hw'] at hb'
    simp only at hb'
    injection hb' with h1 _
    rw [← h1]

/-- Witness for C4 at a concrete tick: the initial world ticked once with the
ball resting at the origin (no reset consumed, score stays 0). -/
theorem score_monotone_until_reset_witness :
    ((false : Bool) = false → (0 : ℕ) = 0 ∨ (0 : ℕ) = 0 + 1) ∧
    ((false : Bool) = true → (0 : ℕ) = 0) :=
  score_monotone_until_reset stayInput w0zero _ false
    ⟨1, ⟨0, 0, 0⟩, ⟨0, 0, 0⟩, 0⟩ ⟨1, ⟨0, 0, 0⟩, ⟨0 + (0 - 0) * (1/2), 0, 0⟩, 0⟩
    rfl rfl tick_stay_eval

/-- C2: when a ResetEvent is pending, `reset` leaves exactly one platform —
the first in query order, i.e. the origin platform — with its `Scored` flag
cleared to false, destroys all obstacles, moves the ball to the origin pose
with zero velocity and zero score, and restores the camera to the initial
pose, for every pre-reset state with at least one platform. -/
theorem reset_restores_initial_state (w : World) (b : Ball) (p : Platform)
    (ps : List Platform) (hb : w.balls = [b]) (hp : w.platforms = p :: ps) :
    ∃ w', reset true w = .ok w' ∧
      w'.platforms = [{ p with scored := false }] ∧
      w'.platforms.length = 1 ∧
      w'.obstacles = [] ∧
      w'.balls = [{ b with pos := ⟨0, 0, 0⟩, vel := ⟨0, 0, 0⟩, score := 0 }] ∧
      w'.cam = Cam.initial := by
  refine ⟨_, reset_true_eq w b hb, ?_, ?_, ?_, ?_, ?_⟩ <;> simp [hp]

/-- Witness for C2 at a concrete busy pre-reset state (score 4, three
platforms, two obstacles, displaced camera). -/
theorem reset_restores_initial_state_witness :
    ∃ w', reset true busyWorld = .ok w' ∧
      w'.platforms = [⟨2, ⟨0, -10 - PLATFORM_SIZE.y / 2, 0⟩, false⟩] ∧
      w'.platforms.length = 1 ∧
      w'.obstacles = [] ∧
      w'.balls = [⟨1, ⟨0, 0, 0⟩, ⟨0, 0, 0⟩, 0⟩] ∧
      w'.cam = Cam.initial :=
  reset_restores_initial_state busyWorld _ _ _ rfl rfl

/-- C10: with no ResetEvent pending, the `reset` system is the identity on
the entire world state — ball transform, velocity and score, every platform
and its flag, every obstacle, and the camera pose are all unchanged. -/
theorem reset_no_event_is_identity (w : World) : reset false w = .ok w := rfl

/-- C9: with zero platforms, or without exactly one ball, both
`increase_score_and_spawn_platforms` (the `unwrap` on the sorted platform
list / `ball_query.single()`) and `detect_fall` (the `unwrap` on the reduced
minimum / `single_mut()`) reach their error branches instead of silently
producing a score change, spawn, or ResetEvent; with exactly one ball and at
least one platform those branches are unreachable. -/
theorem invariant_violation_fails_loudly :
    (∀ w : World, w.platforms = [] ∨ w.balls.length ≠ 1 →
      (∃ e, increase_score_and_spawn_platforms w = .error e) ∧
      (∃ e, detect_fall w = .error e)) ∧
    (∀ (w : World) (b : Ball), w.balls = [b] → w.platforms ≠ [] →
      (∃ x, increase_score_and_spawn_platforms w = .ok x) ∧
      (∃ v, detect_fall w = .ok v)) := by
  constructor
  · intro w hbad
    by_cases hemp : w.platforms.isEmpty
    · constructor
      · exact error_cases _ (fun v hv => by
          simp [increase_score_and_spawn_platforms, hemp] at hv)
      · exact error_cases _ (fun v hv => by simp [detect_fall, hemp] at hv)
    · have hballs : w.balls.length ≠ 1 := by
        rcases hbad with hnil | hn
        · exact absurd (by simp [hnil] : w.platforms.isEmpty = true) hemp
        · exact hn
      cases hbs : w.balls with
      | nil =>
        constructor
        · exact error_cases _ (fun v hv => by
            simp [increase_score_and_spawn_platforms, hemp, hbs] at hv)
        · exact error_cases _ (fun v hv => by simp [detect_fall, hemp, hbs] at hv)
      | cons b1 t =>
        cases t with
        | nil => exact absurd (by simp [hbs]) hballs
        | cons b2 t2 =>
          constructor
          · exact error_cases _ (fun v hv => by
              simp [increase_score_and_spawn_platforms, hemp, hbs] at hv)
          · exact error_cases _ (fun v hv => by simp [detect_fall, hemp, hbs] at hv)
  · intro w b hb hpne
    have hp : ¬w.platforms.isEmpty := by simpa [List.isEmpty_iff] using hpne
    constructor
    · by_cases hz : b.pos.z < (anchor w.platforms).pos.z
      · by_cases hs : (anchor w.platforms).scored
        · exact ⟨_, increase_eq_already w b hb hp hz hs⟩
        · exact ⟨_, increase_eq_score w b hb hp hz (by simpa using hs)⟩
      · exact ⟨_, increase_eq_notPast w b hb hp hz⟩
    · exact ⟨_, detect_fall_eq w b hb hp⟩

/-- Witness for C9: the error branches are reached in a zero-platform world
and in a two-ball world, and are avoided in a well-formed world. -/
theorem invariant_violation_fails_loudly_witness :
    ((∃ e, increase_score_and_spawn_platforms noPlatformWorld = .error e) ∧
      (∃ e, detect_fall noPlatformWorld = .error e)) ∧
    ((∃ e, increase_score_and_spawn_platforms twoBallWorld = .error e) ∧
      (∃ e, detect_fall twoBallWorld = .error e)) ∧
    ((∃ x, increase_score_and_spawn_platforms busyWorld = .ok x) ∧
      (∃ v, detect_fall busyWorld = .ok v)) :=
  ⟨invariant_violation_fails_loudly.1 noPlatformWorld (Or.inl rfl),
   invariant_violation_fails_loudly.1 twoBallWorld
     (Or.inr (by simp [twoBallWorld, w0zero, initialWorld])),
   invariant_violation_fails_loudly.2 busyWorld _ rfl
     (by simp [busyWorld, w0zero, initialWorld])⟩

/-- C6 (amended): a collision-start event sends a ResetEvent only in one
participant order: when its first participant is the Ball and its second an
Obstacle, `detect_hit_obstacle` reports true; the source never checks the
swapped order (see the counterexample). -/
theorem hit_obstacle_first_participant_resets (w : World) (b : Ball)
    (evs : List CollisionEvent) (s : ℕ) (hb : w.balls = [b])
    (hmem : CollisionEvent.started b.id s ∈ evs) (hobs : s ∈ w.obstacles) :
    detect_hit_obstacle evs w = .ok true := by
  rw [detect_hit_eq evs w b hb]
  congr 1
  rw [hitAny, List.any_eq_true]
  exact ⟨_, hmem, by simp [hobs]⟩

/-- Witness for C6 (amended): a (Ball, Obstacle)-ordered collision-start
event in a world with one obstacle sends the ResetEvent. -/
theorem hit_obstacle_first_participant_resets_witness :
    detect_hit_obstacle [CollisionEvent.started 1 7] hitWorld = .ok true :=
  hit_obstacle_first_participant_resets hitWorld ⟨1, ⟨0, 0, 0⟩, ⟨0, 0, 0⟩, 0⟩ _ 7
    rfl (by simp) (by simp [hitWorld, w0zero, initialWorld])

/-- C6 counterexample: a collision-start event whose participants are an
Obstacle (first) and the Ball (second) — one participant is the Ball and the
other an Obstacle, yet no ResetEvent is sent. -/
theorem hit_obstacle_swapped_order_counterexample :
    hitWorld.balls.map Ball.id = [1] ∧ hitWorld.obstacles = [7] ∧
    detect_hit_obstacle [CollisionEvent.started 7 1] hitWorld = .ok false :=
  ⟨rfl, rfl, rfl⟩

/-- C3 counterexample: from the start state, once the ball advances past the
platform, the tick creates TWO new platforms (3 total), not exactly one, and
their longitudinal coordinate is `ball.z - 80 = -92` — not the anchor
coordinate minus the platform length `PLATFORM_SIZE.z = 100` (which would be
`-100`). -/
theorem single_spawn_counterexample :
    PLATFORM_SIZE.z = 100 ∧
    (tick pastInput w0zero).map
        (fun pr => (pr.1.balls.map Ball.score, pr.1.platforms.length,
                    pr.1.platforms.map (fun p => p.pos.z))) =
      .ok ([1], 3, [0, -92, -92]) := by
  refine ⟨rfl, ?_⟩
  rw [show w0zero = initialWorld (fun _ => 0) from rfl,
      tick_initial_eval (fun _ => 0) pastInput rfl rfl (by norm_num [pastInput])
        (by norm_num [pastInput, PLATFORM_SIZE])]
  simp [pastInput]
  norm_num
  rfl

/-- C3 (amended): from the initial state, when the ball first advances past
the platform, the score becomes 1 and the platform is marked scored, and
exactly TWO new platforms are created; each is positioned relative to the
BALL transform: longitudinal offset 80 (not the platform length) ahead of
the ball, vertical drop 90 below the ball, and lateral offsets that are
bounded random perturbations about the ball (uniform over [-20, 0) and
[0, 20) respectively, together a symmetric range about the ball). -/
theorem scoring_spawns_two_platforms (r : ℕ → ℚ) (inp : TickInput)
    (hr : ∀ n, 0 ≤ r n ∧ r n < 1)
    (hkey : inp.resetKey = false) (hcoll : inp.collisions = [])
    (hz : inp.ballPos.z < 0)
    (hy : ¬inp.ballPos.y < -10 - PLATFORM_SIZE.y / 2 - 20) :
    ∃ w' r1 r2, tick inp (initialWorld r) = .ok (w', false) ∧
      0 ≤ r1 ∧ r1 < 1 ∧ 0 ≤ r2 ∧ r2 < 1 ∧
      w'.balls.map Ball.score = [1] ∧
      w'.platforms.map Platform.scored = [true, false, false] ∧
      w'.platforms.map Platform.pos =
        [⟨0, -10 - PLATFORM_SIZE.y / 2, 0⟩,
         ⟨r1 * 20 - 20 + inp.ballPos.x, inp.ballPos.y - 90, inp.ballPos.z - 80⟩,
         ⟨r2 * 20 + inp.ballPos.x, inp.ballPos.y - 90, inp.ballPos.z - 80⟩] := by
  refine ⟨_, r 0, r (3 + 2 * ⌊r 2 * 2 + 2⌋.toNat),
    tick_initial_eval r inp hkey hcoll hz hy,
    (hr 0).1, (hr 0).2, (hr _).1, (hr _).2, ?_, ?_, ?_⟩ <;> simp

/-- Witness for C3 (amended) at a concrete run: the all-zero random stream
and the ball carried to `(0, 0, -12)`. -/
theorem scoring_spawns_two_platforms_witness :
    ∃ w' r1 r2, tick pastInput (initialWorld (fun _ => 0)) = .ok (w', false) ∧
      0 ≤ r1 ∧ r1 < 1 ∧ 0 ≤ r2 ∧ r2 < 1 ∧
      w'.balls.map Ball.score = [1] ∧
      w'.platforms.map Platform.scored = [true, false, false] ∧
      w'.platforms.map Platform.pos =
        [⟨0, -10 - PLATFORM_SIZE.y / 2, 0⟩,
         ⟨r1 * 20 - 20 + pastInput.ballPos.x, pastInput.ballPos.y - 90,
          pastInput.ballPos.z - 80⟩,
         ⟨r2 * 20 + pastInput.ballPos.x, pastInput.ballPos.y - 90,
          pastInput.ballPos.z - 80⟩] :=
  scoring_spawns_two_platforms (fun _ => 0) pastInput
    (fun _ => by norm_num) rfl rfl (by norm_num [pastInput])
    (by norm_num [pastInput, PLATFORM_SIZE])

theorem cameraLerpFactor_baseline (camPos ballPos offset : Vec3R) :
    0.05 ≤ cameraLerpFactor camPos ballPos offset := by
  unfold cameraLerpFactor
  have h1 : 0 ≤ |(ballPos.sub camPos).length - offset.length| / 1000 := by positivity
  linarith

theorem lerp_residual (a t : Vec3R) (f : ℝ) :
    t.sub (a.lerp t f) = Vec3R.smul (1 - f) (t.sub a) := by
  simp only [Vec3R.lerp, Vec3R.add, Vec3R.sub, Vec3R.smul, Vec3R.mk.injEq]
  refine ⟨by ring, by ring, by ring⟩

theorem length_smul (c : ℝ) (v : Vec3R) :
    (Vec3R.smul c v).length = |c| * v.length := by
  unfold Vec3R.length Vec3R.smul
  simp only
  rw [show (c * v.x) ^ 2 + (c * v.y) ^ 2 + (c * v.z) ^ 2 =
        c ^ 2 * (v.x ^ 2 + v.y ^ 2 + v.z ^ 2) from by ring]
  rw [Real.sqrt_mul (sq_nonneg c), Real.sqrt_sq_eq_abs]

theorem length_nonneg (v : Vec3R) : 0 ≤ v.length := Real.sqrt_nonneg _

theorem dot_smul_self (c : ℝ) (v : Vec3R) :
    (Vec3R.smul c v).dot v = c * (v.x ^ 2 + v.y ^ 2 + v.z ^ 2) := by
  unfold Vec3R.dot Vec3R.smul
  simp only
  ring

/-- C7: each tick `move_camera_to_ball` moves the camera translation toward
`ball + CAMERA_OFFSET` by linear interpolation with factor exactly
`0.05 + |d - L| / 1000` (`d` the current camera-to-ball distance, `L` the
offset length), and the factor is never below the `0.05` baseline. -/
theorem camera_follow_factor_spec (camPos ballPos offset : Vec3R) :
    move_camera_translation camPos ballPos offset =
      camPos.lerp (ballPos.add offset)
        (0.05 + |(ballPos.sub camPos).length - offset.length| / 1000) ∧
    0.05 ≤ cameraLerpFactor camPos ballPos offset :=
  ⟨rfl, cameraLerpFactor_baseline camPos ballPos offset⟩

/-- C8 (amended): one camera-follow tick never overshoots as long as the
adaptive factor does not exceed 1: the remaining distance equals
`(1 - f) · D`, never exceeds the starting distance `D`, the remaining
displacement stays aligned with the original one, and with `f < 1` and
`D > 0` it never reaches exactly zero (convergence stays asymptotic).  For
far-away camera positions the factor exceeds 1 and the camera does
overshoot — see the counterexample. -/
theorem camera_no_overshoot_factor_le_one (camPos ballPos offset : Vec3R)
    (hf : cameraLerpFactor camPos ballPos offset ≤ 1) :
    ((ballPos.add offset).sub (move_camera_translation camPos ballPos offset)).length =
      (1 - cameraLerpFactor camPos ballPos offset) *
        ((ballPos.add offset).sub camPos).length ∧
    ((ballPos.add offset).sub (move_camera_translation camPos ballPos offset)).length ≤
      ((ballPos.add offset).sub camPos).length ∧
    0 ≤ ((ballPos.add offset).sub (move_camera_translation camPos ballPos offset)).dot
        ((ballPos.add offset).sub camPos) ∧
    (cameraLerpFactor camPos ballPos offset < 1 →
      0 < ((ballPos.add offset).sub camPos).length →
      0 < ((ballPos.add offset).sub (move_camera_translation camPos ballPos offset)).length) := by
  have hbase := cameraLerpFactor_baseline camPos ballPos offset
  have hres : (ballPos.add offset).sub (move_camera_translation camPos ballPos offset) =
      Vec3R.smul (1 - cameraLerpFactor camPos ballPos offset)
        ((ballPos.add offset).sub camPos) :=
    lerp_residual camPos (ballPos.add offset) (cameraLerpFactor camPos ballPos offset)
  have hlen : ((ballPos.add offset).sub (move_camera_translation camPos ballPos offset)).length =
      (1 - cameraLerpFactor camPos ballPos offset) *
        ((ballPos.add offset).sub camPos).length := by
    rw [hres, length_smul, abs_of_nonneg (by linarith)]
  refine ⟨hlen, ?_, ?_, ?_⟩
  · rw [hlen]
    have hD := length_nonneg ((ballPos.add offset).sub camPos)
    nlinarith
  · rw [hres, dot_smul_self]
    have hsq : 0 ≤ ((ballPos.add offset).sub camPos).x ^ 2 +
        ((ballPos.add offset).sub camPos).y ^ 2 +
        ((ballPos.add offset).sub camPos).z ^ 2 := by positivity
    have h1f : 0 ≤ 1 - cameraLerpFactor camPos ballPos offset := by linarith
    positivity
  · intro hlt hD
    rw [hlen]
    have h1f : 0 < 1 - cameraLerpFactor camPos ballPos offset := by linarith
    positivity

/-- Witness for C8 (amended) at a camera 25 units behind the ball (zero
distance error, factor exactly 0.05). -/
theorem camera_no_overshoot_factor_le_one_witness :
    (((⟨0, 0, 0⟩ : Vec3R).add ⟨0, 20, 15⟩).sub
        (move_camera_translation ⟨0, 0, -25⟩ ⟨0, 0, 0⟩ ⟨0, 20, 15⟩)).length =
      (1 - cameraLerpFactor ⟨0, 0, -25⟩ ⟨0, 0, 0⟩ ⟨0, 20, 15⟩) *
        (((⟨0, 0, 0⟩ : Vec3R).add ⟨0, 20, 15⟩).sub ⟨0, 0, -25⟩).length ∧
    (((⟨0, 0, 0⟩ : Vec3R).add ⟨0, 20, 15⟩).sub
        (move_camera_translation ⟨0, 0, -25⟩ ⟨0, 0, 0⟩ ⟨0, 20, 15⟩)).length ≤
      (((⟨0, 0, 0⟩ : Vec3R).add ⟨0, 20, 15⟩).sub ⟨0, 0, -25⟩).length ∧
    0 ≤ (((⟨0, 0, 0⟩ : Vec3R).add ⟨0, 20, 15⟩).sub
        (move_camera_translation ⟨0, 0, -25⟩ ⟨0, 0, 0⟩ ⟨0, 20, 15⟩)).dot
        (((⟨0, 0, 0⟩ : Vec3R).add ⟨0, 20, 15⟩).sub ⟨0, 0, -25⟩) ∧
    (cameraLerpFactor ⟨0, 0, -25⟩ ⟨0, 0, 0⟩ ⟨0, 20, 15⟩ < 1 →
      0 < (((⟨0, 0, 0⟩ : Vec3R).add ⟨0, 20, 15⟩).sub ⟨0, 0, -25⟩).length →
      0 < (((⟨0, 0, 0⟩ : Vec3R).add ⟨0, 20, 15⟩).sub
          (move_camera_translation ⟨0, 0, -25⟩ ⟨0, 0, 0⟩ ⟨0, 20, 15⟩)).length) :=
  camera_no_overshoot_factor_le_one ⟨0, 0, -25⟩ ⟨0, 0, 0⟩ ⟨0, 20, 15⟩ (by
    unfold cameraLerpFactor Vec3R.sub Vec3R.length
    norm_num)

/-- C8 counterexample: from 3000 units away the adaptive factor is
`0.05 + |3000 - 25| / 1000 = 3.025 > 1`, and one camera-follow tick
overshoots: the remaining displacement reverses direction (negative dot
product with the original one) and the distance to the target exceeds the
starting distance `D`. -/
theorem camera_overshoot_counterexample :
    (((⟨0, 0, 0⟩ : Vec3R).add ⟨0, 20, 15⟩).sub
        (move_camera_translation ⟨0, 0, -3000⟩ ⟨0, 0, 0⟩ ⟨0, 20, 15⟩)).dot
      (((⟨0, 0, 0⟩ : Vec3R).add ⟨0, 20, 15⟩).sub ⟨0, 0, -3000⟩) < 0 ∧
    (((⟨0, 0, 0⟩ : Vec3R).add ⟨0, 20, 15⟩).sub ⟨0, 0, -3000⟩).length <
      (((⟨0, 0, 0⟩ : Vec3R).add ⟨0, 20, 15⟩).sub
        (move_camera_translation ⟨0, 0, -3000⟩ ⟨0, 0, 0⟩ ⟨0, 20, 15⟩)).length := by
  have h625 : Real.sqrt 625 = 25 := by
    rw [show (625 : ℝ) = 25 ^ 2 by norm_num, Real.sqrt_sq (by norm_num)]
  have h9 : Real.sqrt 9000000 = 3000 := by
    rw [show (9000000 : ℝ) = 3000 ^ 2 by norm_num, Real.sqrt_sq (by norm_num)]
  have hfac : cameraLerpFactor ⟨0, 0, -3000⟩ ⟨0, 0, 0⟩ ⟨0, 20, 15⟩ = 3.025 := by
    unfold cameraLerpFactor Vec3R.sub Vec3R.length
    norm_num
    rw [h9, h625]
    norm_num
  have hres : ((⟨0, 0, 0⟩ : Vec3R).add ⟨0, 20, 15⟩).sub
      (move_camera_translation ⟨0, 0, -3000⟩ ⟨0, 0, 0⟩ ⟨0, 20, 15⟩) =
      Vec3R.smul (1 - cameraLerpFactor ⟨0, 0, -3000⟩ ⟨0, 0, 0⟩ ⟨0, 20, 15⟩)
        (((⟨0, 0, 0⟩ : Vec3R).add ⟨0, 20, 15⟩).sub ⟨0, 0, -3000⟩) :=
    lerp_residual ⟨0, 0, -3000⟩ (((⟨0, 0, 0⟩ : Vec3R).add ⟨0, 20, 15⟩)) _
  have hD : 0 < (((⟨0, 0, 0⟩ : Vec3R).add ⟨0, 20, 15⟩).sub ⟨0, 0, -3000⟩).length := by
    unfold Vec3R.length Vec3R.add Vec3R.sub
    norm_num
  constructor
  · rw [hres, dot_smul_self, hfac]
    norm_num [Vec3R.sub, Vec3R.add]
  · rw [hres, length_smul, hfac]
    norm_num
    rw [show |(81 : ℝ) / 40| = 81 / 40 from abs_of_nonneg (by norm_num)]
    nlinarith [hD]

